import Mathlib

/-!
Shallow embedding of `languru`'s `TransformersAction` (`languru/action/hf.py`)
together with proofs about its chat / text-completion / embeddings adapter
logic.

Strings are modelled by Lean's `String` (a wrapper around `List Char`), which
matches Python's view of a `str` as a sequence of characters.  Helper
functions that `hf.py` imports from `languru.utils.*` and
`languru.action.base` are not part of the provided sources; each such helper
is given here as a definition whose doc comment starts with
`Modelled from the spec:` and which follows the specification's wording.
Everything else is translated directly from `hf.py`.
-/

namespace Languru

/-- A chat message (`ChatCompletionMessageParam`): a role string and an
optional content string.  `content = none` models both a missing `"content"`
key and an explicit `None`, which `hf.py` treats identically
(`if "content" in m and m["content"] is not None`). -/
structure Message where
  role : String
  content : Option String
deriving DecidableEq, Repr

/-- The `stop` request parameter as it reaches `chat` via
`kwargs.pop("stop", [])`: either a single Python `str` or a list of
strings.  Python iteration over a `str` yields its individual characters,
which is the behaviour `stopParamItems` below captures. -/
inductive StopParam where
  | str (s : String)
  | list (l : List String)
deriving DecidableEq, Repr

/-- The model/tokenizer handle as `hf.py` consumes it (spec §6): encode,
decode, the special-token data and the optional chat template.  The
tokenizer's own encode/decode implementation is an external collaborator, so
these are opaque function fields. -/
structure Tokenizer where
  encode : String → List Nat
  decode : List Nat → String
  eos_token_id : Option Nat
  eos_token : Option String
  bos_token : Option String
  all_special_tokens : List String
  chat_template : Option (List Message → String)

/-- Per-adapter configuration of `TransformersAction`: the static
`stop_words` class attribute (from `hf.py`) and `default_max_tokens`.

`default_max_tokens` is inherited from `languru.action.base.ActionBase`,
which is not part of the provided sources; it is modelled from the spec
(§4.3 step 1) as the integer the `max_tokens`/`max_length` aliases resolve
to when the caller supplies none. -/
structure TransformersConfig where
  stop_words : List String
  default_max_tokens : Nat

/-- The external generation loop (`self.model.generate`, spec §6): given the
prompt token ids, the effective max length and the optional stop-word list
attached as a stopping criterion, it produces the newly generated token ids
(for a causal LM, `generate` returns the input ids followed by the new
tokens, so the full output sequence is `inputIds ++ newTokens`) and whether
the stopping criterion reported a match during generation. -/
def GenOracle : Type := List Nat → Nat → Option (List String) → List Nat × Bool

/-- A completion choice (`openai.types.CompletionChoice`): finish reason,
index and text. -/
structure CompletionChoice where
  finish_reason : String
  index : Nat
  text : String
deriving DecidableEq, Repr

/-- Token usage (`openai.types.CompletionUsage`).  `completion_tokens` is an
integer because `hf.py` computes it by Python subtraction, which could in
principle go negative. -/
structure CompletionUsage where
  total_tokens : Nat
  prompt_tokens : Nat
  completion_tokens : Int
deriving DecidableEq, Repr

/-- A completion response (`openai.types.Completion`), restricted to the
fields `hf.py` computes deterministically (`id` and `created` are a fresh
UUID and the wall clock, which carry no verifiable content). -/
structure Completion where
  choices : List CompletionChoice
  usage : CompletionUsage
deriving DecidableEq, Repr

/-- A chat message in a response (`ChatCompletionMessage`). -/
structure ChatCompletionMessage where
  role : String
  content : String
deriving DecidableEq, Repr

/-- A chat completion choice (`openai.types.chat.chat_completion.Choice`). -/
structure ChatChoice where
  finish_reason : String
  index : Nat
  message : ChatCompletionMessage
deriving DecidableEq, Repr

/-- A chat completion response (`openai.types.chat.ChatCompletion`),
restricted to its deterministic fields. -/
structure ChatCompletion where
  choices : List ChatChoice
  usage : CompletionUsage
deriving DecidableEq, Repr

/-- Modelled from the spec: `replace_right` is imported from
`languru.utils.common`, which is not part of the provided sources.  The spec
(§4.4) describes the trimming step built on it as removing a stop string
"that appears as a right-aligned substring, removing only its rightmost
occurrence"; accordingly `replace_right source old new` (the `occurrence=1`
case used by `hf.py`) replaces the right-aligned (suffix) occurrence of
`old` by `new` when `old` is a non-empty suffix of `source`, and returns
`source` unchanged otherwise.  An empty `old` never matches. -/
def replace_right (source old new : String) : String :=
  if old.data ≠ [] ∧ old.data.isSuffixOf source.data then
    String.mk (source.data.take (source.data.length - old.data.length) ++ new.data)
  else source

/-- The stop-trimming loop of `chat` (`hf.py` lines 176-184): try each stop
word in iteration order; the first one whose right-trim changes the text
wins and the loop breaks; otherwise the text is returned unchanged. -/
def trimOnce (stops : List String) (text : String) : String :=
  match stops with
  | [] => text
  | w :: ws =>
      let modified := replace_right text w ""
      if modified ≠ text then modified else trimOnce ws text

/-- The first stop word in iteration order that is a non-empty suffix of the
text (the characterization of which stop word `trimOnce` removes). -/
def firstSuffixStop (stops : List String) (text : String) : Option String :=
  match stops with
  | [] => none
  | w :: ws =>
      if w.data ≠ [] ∧ w.data.isSuffixOf text.data then some w
      else firstSuffixStop ws text

/-- One pass of Python's `re.sub(rf"\s*{re.escape(tok)}\s*", "", s)` on a
character list: scan left to right; at each position greedily consume
whitespace, require the literal token, then greedily consume whitespace, and
drop the whole match; otherwise keep one character and move on.  This is
exactly the regex's leftmost non-overlapping matching for a non-empty token
that does not start with a whitespace character (both `eos_token` and
`bos_token` strings satisfy this).  The fuel argument (initialised to the
list length, which each step strictly decreases) makes the recursion
structural; the fuel-exhausted branch is unreachable. -/
def reSubAux (tok : List Char) : Nat → List Char → List Char
  | _, [] => []
  | 0, cs => cs
  | fuel + 1, c :: cs =>
      let rest := (c :: cs).dropWhile (fun ch => ch.isWhitespace)
      if tok ≠ [] ∧ tok.isPrefixOf rest then
        reSubAux tok fuel ((rest.drop tok.length).dropWhile (fun ch => ch.isWhitespace))
      else c :: reSubAux tok fuel cs

/-- `re.sub(rf"\s*{re.escape(tok)}\s*", "", s)` as used by
`remove_echo_text` (`hf.py` lines 448-455). -/
def reSub (tok : String) (s : String) : String :=
  String.mk (reSubAux tok.data s.data.length s.data)

/-- Python's `s.replace(old, new, 1)`: replace the leftmost occurrence of
`old` (an empty `old` matches at position 0, so `new` is prepended). -/
def replaceOnceAux (old new : List Char) : List Char → List Char
  | [] => if old.isPrefixOf ([] : List Char) then new else []
  | c :: cs =>
      if old.isPrefixOf (c :: cs) then new ++ (c :: cs).drop old.length
      else c :: replaceOnceAux old new cs

/-- Python's `completed_text.replace(prompt, "", 1)` semantics on strings
(`hf.py` line 456). -/
def strReplaceOnce (s old new : String) : String :=
  String.mk (replaceOnceAux old.data new.data s.data)

/-- Remove every (leftmost-first, non-overlapping) occurrence of a non-empty
token from a character list; fuel as in `reSubAux`. -/
def removeAllAux (tok : List Char) : Nat → List Char → List Char
  | _, [] => []
  | 0, cs => cs
  | fuel + 1, c :: cs =>
      if tok ≠ [] ∧ tok.isPrefixOf (c :: cs) then
        removeAllAux tok fuel ((c :: cs).drop tok.length)
      else c :: removeAllAux tok fuel cs

/-- Modelled from the spec: `remove_special_tokens` is imported from
`languru.utils.hf`, which is not part of the provided sources.  The spec
(§4.3 step 5) says the completion text is obtained by stripping
"model-specific special tokens"; this is modelled as removing every
occurrence of each of the tokenizer's special-token strings from the
text. -/
def remove_special_tokens (specials : List String) (s : String) : String :=
  specials.foldl (fun acc tok => String.mk (removeAllAux tok.data acc.data.length acc.data)) s

/-- The `if tokenizer.eos_token: ... re.sub ...` pattern of
`remove_echo_text`: a missing (`None`) or empty token string is falsy in
Python and skips the substitution. -/
def applyTokStrip (tok : Option String) (s : String) : String :=
  match tok with
  | none => s
  | some t => if t = "" then s else reSub t s

/-- `TransformersAction.remove_echo_text` (`hf.py` lines 425-458): first the
eos token string and then the bos token string are stripped (with adjacent
whitespace) from BOTH the prompt and the completed text; then one leftmost
occurrence of the (stripped) prompt is removed from the (stripped) completed
text; finally remaining special tokens are stripped. -/
def remove_echo_text (tk : Tokenizer) (prompt completed_text : String) : String :=
  let prompt1 := applyTokStrip tk.eos_token prompt
  let completed1 := applyTokStrip tk.eos_token completed_text
  let prompt2 := applyTokStrip tk.bos_token prompt1
  let completed2 := applyTokStrip tk.bos_token completed1
  let output_text := strReplaceOnce completed2 prompt2 ""
  remove_special_tokens tk.all_special_tokens output_text

/-- The claim's description of the echo-removal step, written from its own
words for comparison with `remove_echo_text`: remove exactly one leftmost
occurrence of the ORIGINAL prompt string from the decoded output, and only
afterwards strip model-specific special tokens. -/
def remove_echo_text_claimed (tk : Tokenizer) (prompt completed_text : String) : String :=
  remove_special_tokens tk.all_special_tokens (strReplaceOnce completed_text prompt "")

/-- Modelled from the spec: `must_list` is imported from
`languru.utils.common`, which is not part of the provided sources.  Per the
spec (§4.1) caller-supplied stop strings are "coerced to a list ...; a
single string is treated as one stop string", so a bare string becomes a
one-element list and a list is kept as is. -/
def must_list : StopParam → List String
  | .str s => [s]
  | .list l => l

/-- The `max_tokens`/`max_length` alias resolution of `text_completion`
(`hf.py` lines 219-223): `kwargs.get("max_tokens") or kwargs.get("max_length")
or None`, falling back to `self.default_max_tokens`.  A supplied `0` is
falsy in Python and also falls back to the default. -/
def resolveMaxLen (arg : Option Nat) (dflt : Nat) : Nat :=
  match arg with
  | none => dflt
  | some n => if n = 0 then dflt else n

/-- The prompt-length guard of `text_completion` (`hf.py` lines 252-258): if
the prompt's token length already meets or exceeds `max_length`, reset
`max_length` to the prompt token length plus 20 (with a warning). -/
def effectiveMaxLength (inputsTokensLength maxLength : Nat) : Nat :=
  if inputsTokensLength ≥ maxLength then inputsTokensLength + 20 else maxLength

/-- Modelled from the spec: `StopAtWordsStoppingCriteria.get_stop_reason` is
part of `languru.utils.hf`, which is not in the provided sources.  Per the
spec (§3 StopState, §4.2) the stop matcher records the matched stop string
on first match; its stop reason is therefore `"stop"` when a match occurred
during generation and nothing (Python `None`) otherwise. -/
def get_stop_reason (matched : Bool) : Option String :=
  if matched then some "stop" else none

/-- The combined stop-word list of `text_completion` (`hf.py` lines
232-234): the adapter's static `stop_words` followed by the request's
`stop` parameter coerced by `must_list`. -/
def totalStopWords (cfg : TransformersConfig) (stop : StopParam) : List String :=
  cfg.stop_words ++ must_list stop

/-- `TransformersAction.text_completion` (`hf.py` lines 197-288), with the
external generation loop supplied as a `GenOracle`.  A stopping criterion is
attached exactly when the combined stop-word list is non-empty.  The finish
reason mirrors lines 270-277: with a stopping criterion present it is
`get_stop_reason() or "length"`; only with NO stopping criterion (`elif`) is
the end-of-sequence token of the last output token consulted. -/
def text_completion (tk : Tokenizer) (cfg : TransformersConfig) (gen : GenOracle)
    (prompt : String) (max_tokens : Option Nat) (stop : StopParam) :
    Except String Completion :=
  if prompt = "" then .error "The `prompt` cannot be empty"
  else
    let maxLength0 := resolveMaxLen max_tokens cfg.default_max_tokens
    let stops := totalStopWords cfg stop
    let input_ids := tk.encode prompt
    let inputs_tokens_length := input_ids.length
    let maxLength := effectiveMaxLength inputs_tokens_length maxLength0
    let genRes := gen input_ids maxLength (if stops = [] then none else some stops)
    let outputs := input_ids ++ genRes.1
    let outputs_tokens_length := outputs.length
    let completed_text := tk.decode outputs
    let output_text := remove_echo_text tk prompt completed_text
    let finish_reason :=
      if stops ≠ [] then (get_stop_reason genRes.2).getD "length"
      else
        match tk.eos_token_id, outputs.getLast? with
        | some e, some last => if last = e then "stop" else "length"
        | _, _ => "length"
    .ok
      { choices := [{ finish_reason := finish_reason, index := 0, text := output_text }],
        usage :=
          { total_tokens := outputs_tokens_length,
            prompt_tokens := inputs_tokens_length,
            completion_tokens :=
              (outputs_tokens_length : Int) - (inputs_tokens_length : Int) } }

/-- The finish reason of the single choice produced by `text_completion`
(`none` when the call fails). -/
def tcFinishReason (tk : Tokenizer) (cfg : TransformersConfig) (gen : GenOracle)
    (prompt : String) (max_tokens : Option Nat) (stop : StopParam) : Option String :=
  (text_completion tk cfg gen prompt max_tokens stop).toOption.bind
    fun c => c.choices.head?.map fun ch => ch.finish_reason

/-- The effective max length `text_completion` hands to the generation
loop. -/
def tcMaxLength (tk : Tokenizer) (cfg : TransformersConfig) (prompt : String)
    (max_tokens : Option Nat) : Nat :=
  effectiveMaxLength (tk.encode prompt).length (resolveMaxLen max_tokens cfg.default_max_tokens)

/-- The optional stopping-criterion argument `text_completion` hands to the
generation loop. -/
def tcStopArg (cfg : TransformersConfig) (stop : StopParam) : Option (List String) :=
  if totalStopWords cfg stop = [] then none else some (totalStopWords cfg stop)

/-- The full output token sequence of a `text_completion` call: the prompt
ids followed by the generation loop's new tokens. -/
def tcOutputs (tk : Tokenizer) (cfg : TransformersConfig) (gen : GenOracle)
    (prompt : String) (max_tokens : Option Nat) (stop : StopParam) : List Nat :=
  tk.encode prompt ++
    (gen (tk.encode prompt) (tcMaxLength tk cfg prompt max_tokens) (tcStopArg cfg stop)).1

/-- Whether the stopping criterion reported a match during the generation of
a `text_completion` call. -/
def tcMatched (tk : Tokenizer) (cfg : TransformersConfig) (gen : GenOracle)
    (prompt : String) (max_tokens : Option Nat) (stop : StopParam) : Bool :=
  (gen (tk.encode prompt) (tcMaxLength tk cfg prompt max_tokens) (tcStopArg cfg stop)).2

/-- Whether the last token of the full output sequence is the tokenizer's
end-of-sequence token (the check of `hf.py` lines 273-276). -/
def tcEosLast (tk : Tokenizer) (cfg : TransformersConfig) (gen : GenOracle)
    (prompt : String) (max_tokens : Option Nat) (stop : StopParam) : Bool :=
  match tk.eos_token_id, (tcOutputs tk cfg gen prompt max_tokens stop).getLast? with
  | some e, some last => last == e
  | _, _ => false

/-- What Python's `for stop_word in stop:` iterates over in the trimming
loop of `chat` (`hf.py` lines 178-184): over a list it yields the list's
items, but over a bare string it yields the string's individual characters
(each a one-character string). -/
def stopParamItems : StopParam → List String
  | .str s => s.data.map fun c => String.mk [c]
  | .list l => l

/-- The fallback prompt construction of `chat` (`hf.py` lines 123-128): for
each message with content append a role-tagged block, then strip the
accumulated prompt — the `prompt = prompt.strip()` sits inside the loop body
(once per message, regardless of content), and once more after the loop. -/
def buildFallbackPrompt (messages : List Message) : String :=
  (messages.foldl
    (fun prompt m =>
      (match m.content with
       | some c => prompt ++ "\n\n" ++ m.role ++ ":\n" ++ c
       | none => prompt).trim)
    "").trim

/-- The stop-word preparation of `chat`'s fallback branch (`hf.py` lines
133-146): coerce the caller's `stop` to a list (a bare string becomes a
one-element list), drop empty strings, and extend with a role stop
`"\n" ++ role ++ ":"` for every distinct role among the messages' roles plus
the four baseline roles (the Python `set` is modelled by `dedup`). -/
def fallbackStops (messages : List Message) (stop : StopParam) : List String :=
  let stop1 :=
    match stop with
    | .str s => [s]
    | .list l => l
  let stop2 := stop1.filter (fun s => s ≠ "")
  let roles := ((messages.map fun m => m.role) ++ ["assistant", "bot", "user", "system"]).dedup
  stop2 ++ roles.map fun role => "\n" ++ role ++ ":"

/-- The completion-to-chat reshaping of `chat` (`hf.py` lines 165-195): each
completion choice's text is trimmed by the stop loop and wrapped in an
assistant message. -/
def completionToChat (trimStops : List String) (c : Completion) : ChatCompletion :=
  { choices :=
      c.choices.map fun ch =>
        { finish_reason := ch.finish_reason,
          index := ch.index,
          message := { role := "assistant", content := trimOnce trimStops ch.text } },
    usage := c.usage }

/-- `TransformersAction.chat` (`hf.py` lines 114-195).  Without a chat
template the fallback prompt and the extended stop list are built and the
extended list is both passed to `text_completion` and used for trimming.
With a chat template the prompt is rendered from the content-bearing
messages and the caller's `stop` parameter is passed through UNCOERCED: the
trimming loop then iterates over it as Python does (characters of a bare
string). -/
def chat (tk : Tokenizer) (cfg : TransformersConfig) (gen : GenOracle)
    (messages : List Message) (stop : StopParam) (max_tokens : Option Nat) :
    Except String ChatCompletion :=
  if messages = [] then .error "The `messages` cannot be empty"
  else
    match tk.chat_template with
    | none =>
        let prompt0 := buildFallbackPrompt messages
        if prompt0 = "" then .error "The `prompt` cannot be empty, no content in messages"
        else
          let prompt := prompt0 ++ "\n\nassistant:\n"
          let stops := fallbackStops messages stop
          (text_completion tk cfg gen prompt max_tokens (.list stops)).map
            (completionToChat stops)
    | some template =>
        let conversation := messages.filter fun m => m.content.isSome
        let prompt := template conversation
        if prompt = "" then .error "The `prompt` cannot be empty, no content in messages"
        else
          (text_completion tk cfg gen prompt max_tokens stop).map
            (completionToChat (stopParamItems stop))

/-- Pointwise scaling of a hidden-state vector by a mask weight. -/
def scaleVec (c : ℚ) (v : List ℚ) : List ℚ :=
  v.map fun x => c * x

/-- Pointwise addition of hidden-state vectors. -/
def addVec (u v : List ℚ) : List ℚ :=
  List.zipWith (· + ·) u v

/-- Modelled from the spec: `mean_pooling` is imported from
`languru.utils.calculation`, which is not part of the provided sources.  Per
the spec (§4.5), masked mean pooling over one input's per-token hidden
vectors: each position is weighted by its attention-mask value, the weighted
vectors are summed, and the sum is divided by the sum of the weights (NOT by
the sequence length).  Exact rational arithmetic stands in for the float
tensors. -/
def mean_pooling (hidden : List (List ℚ)) (mask : List ℚ) : List ℚ :=
  let dim := (hidden.headD []).length
  let weighted := List.zipWith scaleVec mask hidden
  let summed := weighted.foldr addVec (List.replicate dim 0)
  let denom := mask.sum
  summed.map fun x => x / denom

/-- The batch embedding pooling of `TransformersAction.embeddings` (`hf.py`
lines 300-316): one pooled vector per input row of the batch. -/
def embeddingsPooled (hiddenBatch : List (List (List ℚ))) (maskBatch : List (List ℚ)) :
    List (List ℚ) :=
  List.zipWith mean_pooling hiddenBatch maskBatch

/-- A toy character-level tokenizer without special tokens and without a
chat template, for concrete instantiations. -/
def tkPlain : Tokenizer :=
  { encode := fun s => s.data.map fun c => c.toNat,
    decode := fun l => String.mk (l.map fun n => Char.ofNat n),
    eos_token_id := some 101,
    eos_token := none,
    bos_token := none,
    all_special_tokens := [],
    chat_template := none }

/-- A toy character-level tokenizer whose eos token string is `"E"` (also
its only special token), for concrete instantiations of the echo-removal
step. -/
def tkEcho : Tokenizer :=
  { encode := fun s => s.data.map fun c => c.toNat,
    decode := fun l => String.mk (l.map fun n => Char.ofNat n),
    eos_token_id := none,
    eos_token := some "E",
    bos_token := none,
    all_special_tokens := ["E"],
    chat_template := none }

/-- A toy character-level tokenizer WITH a chat template (always rendering
`"P"`), for concrete instantiations of the template branch of `chat`. -/
def tkTemplate : Tokenizer :=
  { encode := fun s => s.data.map fun c => c.toNat,
    decode := fun l => String.mk (l.map fun n => Char.ofNat n),
    eos_token_id := none,
    eos_token := none,
    bos_token := none,
    all_special_tokens := [],
    chat_template := some fun _ => "P" }

/-- Adapter configuration with no static stop words. -/
def cfgPlain : TransformersConfig :=
  { stop_words := [], default_max_tokens := 10 }

/-- Adapter configuration with one static stop word `"s"`. -/
def cfgStops : TransformersConfig :=
  { stop_words := ["s"], default_max_tokens := 5 }

/-- A generation oracle that always emits the single token `101` (the toy
eos id) and reports no stopping-criterion match. -/
def gen101 : GenOracle := fun _ _ _ => ([101], false)

/-- A generation oracle that always emits the single token `101` and reports
a stopping-criterion match. -/
def gen101Hit : GenOracle := fun _ _ _ => ([101], true)

/-- A generation oracle that always emits the tokens of the text `"xa"` and
reports no stopping-criterion match. -/
def genXa : GenOracle :=
  fun _ _ _ => (("xa" : String).data.map fun c => c.toNat, false)

/-- The completion that `text_completion tkPlain cfgPlain gen101 "p" none
(.list [])` produces, used as a concrete witness value. -/
def tcSample : Completion :=
  { choices := [{ finish_reason := "stop", index := 0, text := "e" }],
    usage := { total_tokens := 2, prompt_tokens := 1, completion_tokens := 1 } }

lemma isPrefixOf_length_le (l₁ l₂ : List Char) (h : l₁.isPrefixOf l₂) :
    l₁.length ≤ l₂.length := by
  induction l₁ generalizing l₂ with
  | nil => simp
  | cons a as ih =>
    cases l₂ with
    | nil => simp [List.isPrefixOf] at h
    | cons b bs =>
      simp only [List.isPrefixOf, Bool.and_eq_true] at h
      simpa using ih bs h.2

lemma isSuffixOf_length_le (l₁ l₂ : List Char) (h : l₁.isSuffixOf l₂) :
    l₁.length ≤ l₂.length := by
  unfold List.isSuffixOf at h
  have := isPrefixOf_length_le _ _ h
  simpa using this

/-- What `trimOnce` computes: the first (iteration-order) stop word that is
a non-empty suffix of the text is removed at its right-aligned occurrence,
at most once; if no stop word is a suffix the text is unchanged. -/
lemma trimOnce_eq (stops : List String) (t : String) :
    trimOnce stops t =
      match firstSuffixStop stops t with
      | none => t
      | some w => String.mk (t.data.take (t.data.length - w.data.length)) := by
  induction stops with
  | nil => rfl
  | cons w ws ih =>
    by_cases h : w.data ≠ [] ∧ w.data.isSuffixOf t.data
    · have hk : 1 ≤ w.data.length := by
        cases hw : w.data with
        | nil => exact absurd hw h.1
        | cons c cs => simp [hw]
      have hkn : w.data.length ≤ t.data.length := isSuffixOf_length_le _ _ h.2
      have hmod : replace_right t w "" =
          String.mk (t.data.take (t.data.length - w.data.length)) := by
        unfold replace_right
        rw [if_pos h]
        simp
      have hne : String.mk (t.data.take (t.data.length - w.data.length)) ≠ t := by
        intro heq
        have hdata : t.data.take (t.data.length - w.data.length) = t.data :=
          congrArg String.data heq
        have hlen := congrArg List.length hdata
        rw [List.length_take] at hlen
        omega
      simp only [trimOnce, firstSuffixStop]
      rw [if_pos h, hmod, if_pos hne]
    · have hmod : replace_right t w "" = t := by
        unfold replace_right
        rw [if_neg h]
      simp only [trimOnce, firstSuffixStop]
      rw [if_neg h, hmod, if_neg (not_not_intro rfl)]
      exact ih

lemma scaleVec_one (v : List ℚ) : scaleVec 1 v = v := by
  simp [scaleVec]

lemma zipWith_scaleVec_replicate (c : ℚ) (l : List (List ℚ)) :
    List.zipWith scaleVec (List.replicate l.length c) l = l.map (scaleVec c) := by
  induction l with
  | nil => rfl
  | cons v vs ih => simp [List.replicate_succ, ih]

lemma addVec_scaleVec_zero (v : List ℚ) :
    addVec (scaleVec 0 v) (List.replicate v.length 0) = List.replicate v.length 0 := by
  induction v with
  | nil => rfl
  | cons x xs ih =>
    simp only [scaleVec, addVec, List.map_cons, List.length_cons, List.replicate_succ,
      List.zipWith_cons_cons, zero_mul, zero_add] at ih ⊢
    rw [ih]

lemma foldr_addVec_scaleVec_zero (d : ℕ) (p : List (List ℚ)) (hp : ∀ v ∈ p, v.length = d) :
    (p.map (scaleVec 0)).foldr addVec (List.replicate d 0) = List.replicate d 0 := by
  induction p with
  | nil => rfl
  | cons v vs ih =>
    have hv : v.length = d := hp v (List.mem_cons_self v vs)
    have hvs : ∀ u ∈ vs, u.length = d := fun u hu => hp u (List.mem_cons_of_mem v hu)
    simp only [List.map_cons, List.foldr_cons, ih hvs]
    rw [← hv]
    exact addVec_scaleVec_zero v

lemma sum_ones_zeros (n k : ℕ) :
    ((List.replicate n (1 : ℚ)) ++ List.replicate k 0).sum = (n : ℚ) := by
  simp [List.sum_append, List.sum_replicate]

/-- Masked mean pooling of a real prefix `h` followed by zero-masked padding
rows depends only on `h`. -/
lemma mean_pooling_padded (h p : List (List ℚ)) (d : ℕ)
    (hh : ∀ v ∈ h, v.length = d) (hp : ∀ v ∈ p, v.length = d) (hne : h ≠ []) :
    mean_pooling (h ++ p) (List.replicate h.length 1 ++ List.replicate p.length 0) =
      (h.foldr addVec (List.replicate d 0)).map fun x => x / (h.length : ℚ) := by
  have hdim : ((h ++ p).headD []).length = d := by
    cases h with
    | nil => exact absurd rfl hne
    | cons v vs => exact hh v (List.mem_cons_self v vs)
  have hzip : List.zipWith scaleVec
      (List.replicate h.length 1 ++ List.replicate p.length 0) (h ++ p) =
      h ++ p.map (scaleVec 0) := by
    rw [List.zipWith_append _ _ _ _ _ (by simp)]
    have h1 : List.zipWith scaleVec (List.replicate h.length 1) h = h.map (scaleVec 1) :=
      zipWith_scaleVec_replicate 1 h
    have h0 : List.zipWith scaleVec (List.replicate p.length 0) p = p.map (scaleVec 0) :=
      zipWith_scaleVec_replicate 0 p
    rw [h1, h0]
    have : h.map (scaleVec 1) = h := by
      have hid : scaleVec 1 = id := funext fun v => (scaleVec_one v).trans rfl
      rw [hid, List.map_id]
    rw [this]
  simp only [mean_pooling]
  rw [hdim, hzip, List.foldr_append, foldr_addVec_scaleVec_zero d p hp, sum_ones_zeros]

/-- The finish reason of a successful `text_completion` call in closed form:
with stop words configured it depends only on whether the stopping criterion
matched; only without stop words is the end-of-sequence check consulted. -/
lemma tcFinishReason_eq (tk : Tokenizer) (cfg : TransformersConfig) (gen : GenOracle)
    (prompt : String) (mt : Option Nat) (sp : StopParam) (hp : prompt ≠ "") :
    tcFinishReason tk cfg gen prompt mt sp =
      some (if totalStopWords cfg sp = []
            then (if tcEosLast tk cfg gen prompt mt sp then "stop" else "length")
            else (if tcMatched tk cfg gen prompt mt sp then "stop" else "length")) := by
  unfold tcFinishReason text_completion tcEosLast tcMatched tcOutputs tcMaxLength tcStopArg
  rw [if_neg hp]
  by_cases hs : totalStopWords cfg sp = []
  · simp only [hs, if_true, ite_true, ite_false, not_true_eq_false, if_neg (not_not_intro hs)]
    simp only [Except.toOption, Option.bind, List.head?, Option.map]
    rcases tk.eos_token_id with _ | e
    · simp
    · rcases (tk.encode prompt ++
          (gen (tk.encode prompt)
            (effectiveMaxLength (tk.encode prompt).length
              (resolveMaxLen mt cfg.default_max_tokens)) none).1).getLast? with _ | last
      · simp
      · simp [beq_iff_eq]
  · simp only [hs, if_false, ite_false, if_pos hs, ite_true]
    simp only [Except.toOption, Option.bind, List.head?, Option.map, get_stop_reason]
    rcases hr : (gen (tk.encode prompt)
        (effectiveMaxLength (tk.encode prompt).length
          (resolveMaxLen mt cfg.default_max_tokens))
        (some (totalStopWords cfg sp))).2 with _ | _
    · simp [hs, hr]
    · simp [hs, hr]

/-- Claim C1 counterexample.  The claim says that when no stop string matched
and the model's end-of-sequence token was the last generated token, the
finish reason is `"stop"` "whether or not any stop sequences were
configured".  Here a stop word IS configured (`cfgStops`), the criterion
never matches, the last output token is the eos token — yet the code's
`elif` skips the eos check and reports `"length"`, not `"stop"`. -/
theorem C1_counterexample :
    tcFinishReason tkPlain cfgStops gen101 "p" none (.list []) = some "length"
    ∧ tcMatched tkPlain cfgStops gen101 "p" none (.list []) = false
    ∧ tcEosLast tkPlain cfgStops gen101 "p" none (.list []) = true
    ∧ totalStopWords cfgStops (.list []) ≠ []
    ∧ ("length" : String) ≠ "stop" := by decide

/-- Claim C1 amended: if a configured stop string matched during generation,
finish_reason is `"stop"`; if none matched it is `"length"` whenever any
stop sequences were configured (the end-of-sequence rule does NOT apply
then); only when no stop sequences were configured at all is finish_reason
`"stop"` iff the end-of-sequence token was the last output token and
`"length"` otherwise. -/
theorem C1_amended (tk : Tokenizer) (cfg : TransformersConfig) (gen : GenOracle)
    (prompt : String) (mt : Option Nat) (sp : StopParam) (hp : prompt ≠ "") :
    (totalStopWords cfg sp ≠ [] → tcMatched tk cfg gen prompt mt sp = true →
        tcFinishReason tk cfg gen prompt mt sp = some "stop")
    ∧ (totalStopWords cfg sp ≠ [] → tcMatched tk cfg gen prompt mt sp = false →
        tcFinishReason tk cfg gen prompt mt sp = some "length")
    ∧ (totalStopWords cfg sp = [] → tcEosLast tk cfg gen prompt mt sp = true →
        tcFinishReason tk cfg gen prompt mt sp = some "stop")
    ∧ (totalStopWords cfg sp = [] → tcEosLast tk cfg gen prompt mt sp = false →
        tcFinishReason tk cfg gen prompt mt sp = some "length") := by
  have key := tcFinishReason_eq tk cfg gen prompt mt sp hp
  refine ⟨?_, ?_, ?_, ?_⟩ <;> intro h1 h2 <;> rw [key] <;> simp [h1, h2]

/-- Claim C1 witness: with no stop words configured and the eos token as last
output token, the finish reason is `"stop"`. -/
theorem C1_witness :
    tcFinishReason tkPlain cfgPlain gen101 "p" none (.list []) = some "stop" :=
  (C1_amended tkPlain cfgPlain gen101 "p" none (.list []) (by decide)).2.2.1
    (by decide) (by decide)

/-- Claim C2: the chat stop-trimming step removes exactly the first stop
string (in iteration order) that appears as a right-aligned (suffix)
substring of the completion text, removing only its rightmost (i.e. the
suffix) occurrence, at most once in total; a text not ending in any stop
string is returned unchanged. -/
theorem C2_trim_right_aligned (stops : List String) (t : String) :
    trimOnce stops t =
      match firstSuffixStop stops t with
      | none => t
      | some w => String.mk (t.data.take (t.data.length - w.data.length)) :=
  trimOnce_eq stops t

/-- Claim C3 counterexample.  The claim says the effective budget leaves at
least 20 tokens of room beyond the prompt length for EVERY caller-supplied
max_length; but with prompt token length 100 and requested max_length 110
the guard does not fire (110 > 100) and only 10 tokens of room remain. -/
theorem C3_counterexample :
    effectiveMaxLength 100 110 = 110 ∧ ¬(100 + 20 ≤ effectiveMaxLength 100 110) := by
  decide

/-- Claim C3 amended: if the prompt's token length meets or exceeds the
requested max_length, max_length is widened to exactly the prompt token
length plus 20; in general the effective budget merely exceeds the prompt
length (at least one token of room), with the 20-token guarantee only in
the widened case. -/
theorem C3_amended (p m : ℕ) :
    (m ≤ p → effectiveMaxLength p m = p + 20) ∧ p < effectiveMaxLength p m := by
  constructor
  · intro h
    simp [effectiveMaxLength, h]
  · unfold effectiveMaxLength
    split <;> omega

/-- Claim C3 witness: the spec's own scenario — prompt token length 2048,
requested max_length 2000 — is widened to 2068. -/
theorem C3_witness :
    effectiveMaxLength 2048 2000 = 2068 ∧ 2048 < effectiveMaxLength 2048 2000 :=
  ⟨(C3_amended 2048 2000).1 (by norm_num), (C3_amended 2048 2000).2⟩

/-- Claim C4: for every completed `text_completion` call,
`completion_tokens = total_tokens - prompt_tokens` and
`prompt_tokens ≤ total_tokens` (so `completion_tokens` is never negative),
where `prompt_tokens` is the tokenized input length and `total_tokens` the
output sequence length (input ids followed by the generation loop's new
tokens). -/
theorem C4_usage_invariant (tk : Tokenizer) (cfg : TransformersConfig) (gen : GenOracle)
    (prompt : String) (mt : Option Nat) (sp : StopParam) (c : Completion)
    (h : text_completion tk cfg gen prompt mt sp = .ok c) :
    c.usage.completion_tokens =
        (c.usage.total_tokens : Int) - (c.usage.prompt_tokens : Int)
    ∧ c.usage.prompt_tokens ≤ c.usage.total_tokens := by
  unfold text_completion at h
  by_cases hp : prompt = ""
  · rw [if_pos hp] at h
    exact absurd h (by simp)
  · rw [if_neg hp] at h
    injection h with h
    subst h
    refine ⟨rfl, ?_⟩
    simp [List.length_append]

/-- Claim C4 witness: a concrete call with prompt `"p"` produces usage
`{total 2, prompt 1, completion 1}` satisfying the invariant. -/
theorem C4_witness :
    tcSample.usage.completion_tokens =
        (tcSample.usage.total_tokens : Int) - (tcSample.usage.prompt_tokens : Int)
    ∧ tcSample.usage.prompt_tokens ≤ tcSample.usage.total_tokens :=
  C4_usage_invariant tkPlain cfgPlain gen101 "p" none (.list []) tcSample (by rfl)

/-- Claim C5: in fallback mode (no chat template) with at least one message,
the effective stop list passed to the completion step contains
`"\n" ++ role ++ ":"` for every role appearing in the messages and for each
of the four baseline roles assistant, bot, user and system. -/
theorem C5_fallback_stop_roles (messages : List Message) (stop : StopParam) (r : String)
    (_hne : messages ≠ [])
    (hr : r ∈ messages.map (fun m => m.role) ∨ r ∈ ["assistant", "bot", "user", "system"]) :
    ("\n" ++ r ++ ":") ∈ fallbackStops messages stop := by
  simp only [fallbackStops]
  apply List.mem_append_right
  apply List.mem_map_of_mem
  rw [List.mem_dedup]
  rcases hr with h | h
  · exact List.mem_append_left _ h
  · exact List.mem_append_right _ h

/-- Claim C5 witness: for a single user message, the role stop for `"user"`
is in the effective stop list. -/
theorem C5_witness :
    ("\n" ++ "user" ++ ":") ∈ fallbackStops [{ role := "user", content := some "hi" }] (.list []) :=
  C5_fallback_stop_roles [{ role := "user", content := some "hi" }] (.list []) "user"
    (by decide) (Or.inl (by decide))

/-- Claim C6 counterexample.  The claim says the trim is idempotent for EVERY
completion text and stop set; but for text `"xx"` and stop set `["x"]` the
first trim yields `"x"`, which still ends in the stop string, so a second
application trims again. -/
theorem C6_counterexample :
    trimOnce ["x"] (trimOnce ["x"] "xx") ≠ trimOnce ["x"] "xx" := by decide

/-- Claim C6 amended: within one application the trim happens at most once
(first suffix match wins); re-applying the trim is a no-op exactly when the
once-trimmed text no longer ends in any non-empty stop string — otherwise a
second application may trim again. -/
theorem C6_amended (stops : List String) (t : String)
    (h : firstSuffixStop stops (trimOnce stops t) = none) :
    trimOnce stops (trimOnce stops t) = trimOnce stops t := by
  rw [trimOnce_eq stops (trimOnce stops t), h]

/-- Claim C6 witness: with stop set `["a"]` and text `"bc"` (whose trim ends
in no stop string), re-trimming is a no-op. -/
theorem C6_witness :
    trimOnce ["a"] (trimOnce ["a"] "bc") = trimOnce ["a"] "bc" :=
  C6_amended ["a"] "bc" (by decide)

/-- Claim C7 counterexample.  The claim says the completion text is the
decoded output minus one leftmost occurrence of the ORIGINAL prompt, with
special tokens stripped only AFTERWARDS.  With eos token `"E"`, prompt
`"ab"` and decoded output `"aEbXYZ"`, the code first strips `"E"` from both
strings and then removes the stripped prompt, yielding `"XYZ"`; the claimed
order finds no occurrence of `"ab"` in `"aEbXYZ"` and yields `"abXYZ"`. -/
theorem C7_counterexample :
    remove_echo_text tkEcho "ab" "aEbXYZ" = "XYZ"
    ∧ remove_echo_text_claimed tkEcho "ab" "aEbXYZ" = "abXYZ"
    ∧ ("XYZ" : String) ≠ "abXYZ" := by decide

/-- Claim C7 amended: the completion text is obtained by FIRST stripping the
eos and bos token strings (with adjacent whitespace) from both the prompt
and the decoded output, THEN removing one leftmost occurrence of the
stripped prompt from the stripped decoded output, then stripping the
remaining special tokens; when the tokenizer defines neither an eos nor a
bos token string this coincides with the claimed description. -/
theorem C7_amended (tk : Tokenizer) (prompt completed : String) :
    remove_echo_text tk prompt completed =
      remove_special_tokens tk.all_special_tokens
        (strReplaceOnce
          (applyTokStrip tk.bos_token (applyTokStrip tk.eos_token completed))
          (applyTokStrip tk.bos_token (applyTokStrip tk.eos_token prompt)) "")
    ∧ (tk.eos_token = none → tk.bos_token = none →
        remove_echo_text tk prompt completed = remove_echo_text_claimed tk prompt completed) := by
  constructor
  · rfl
  · intro he hb
    simp [remove_echo_text, remove_echo_text_claimed, applyTokStrip, he, hb]

/-- Claim C7 witness: for a tokenizer without eos/bos token strings the code
and the claimed description agree. -/
theorem C7_witness :
    remove_echo_text tkTemplate "a" "Pab" = remove_echo_text_claimed tkTemplate "a" "Pab" :=
  (C7_amended tkTemplate "a" "Pab").2 rfl rfl

/-- Claim C8: `chat` with an empty message list and `text_completion` with an
empty prompt fail immediately with a `ValueError`; the result is a fixed
error value for EVERY generation oracle, so the model is never invoked and
nothing is retried. -/
theorem C8_empty_inputs_rejected (tk : Tokenizer) (cfg : TransformersConfig) (gen : GenOracle)
    (stop stop2 : StopParam) (mt mt2 : Option Nat) :
    chat tk cfg gen [] stop mt = .error "The `messages` cannot be empty"
    ∧ text_completion tk cfg gen "" mt2 stop2 = .error "The `prompt` cannot be empty" := by
  constructor
  · simp [chat]
  · simp [text_completion]

/-- Claim C9: masked mean pooling (weighted by the attention mask and divided
by the sum of the mask weights) is invariant to the amount of trailing
zero-masked padding — padding the same real rows with 1 or with 2 padding
rows yields the same vector — and is a pure function, so identical inputs
yield identical vectors. -/
theorem C9_masked_mean_pooling (h p₁ p₂ : List (List ℚ)) (d : ℕ)
    (hh : ∀ v ∈ h, v.length = d) (hp₁ : ∀ v ∈ p₁, v.length = d)
    (hp₂ : ∀ v ∈ p₂, v.length = d) (hne : h ≠ []) :
    mean_pooling (h ++ p₁) (List.replicate h.length 1 ++ List.replicate p₁.length 0) =
      mean_pooling (h ++ p₂) (List.replicate h.length 1 ++ List.replicate p₂.length 0)
    ∧ ∀ hidden mask, mean_pooling hidden mask = mean_pooling hidden mask := by
  refine ⟨?_, fun _ _ => rfl⟩
  rw [mean_pooling_padded h p₁ d hh hp₁ hne, mean_pooling_padded h p₂ d hh hp₂ hne]

/-- Claim C9 witness: the real row `[2]` padded with one zero-masked row and
with two zero-masked rows pools to the same vector, namely `[2]`. -/
theorem C9_witness :
    mean_pooling ([[2]] ++ [[5]]) (List.replicate 1 1 ++ List.replicate 1 0) =
      mean_pooling ([[2]] ++ [[7], [9]]) (List.replicate 1 1 ++ List.replicate 2 0)
    ∧ mean_pooling [[2], [5]] [1, 0] = [2] := by
  constructor
  · exact (C9_masked_mean_pooling [[2]] [[5]] [[7], [9]] 1 (by simp) (by simp) (by simp)
      (by simp)).1
  · norm_num [mean_pooling, scaleVec, addVec]

/-- Claim C10: in template mode with `stop` supplied as the single string
`"ab"`, `chat` passes the string uncoerced to the trimming loop, which
iterates over its characters `["a", "b"]`; on the completion text `"xa"`
the returned content is `"x"` — the single character `'a'` (the first
character of the stop string occurring in the text) removed at its
rightmost occurrence — whereas trimming the whole stop string `"ab"` would
have left `"xa"` unchanged. -/
theorem C10_template_string_stop :
    (chat tkTemplate cfgPlain genXa [{ role := "user", content := some "hi" }] (.str "ab")
          none).toOption.map (fun r => r.choices.map fun ch => ch.message.content) =
        some ["x"]
    ∧ stopParamItems (.str "ab") = ["a", "b"]
    ∧ replace_right "xa" "a" "" = "x"
    ∧ trimOnce ["ab"] "xa" = "xa"
    ∧ ("x" : String) ≠ "xa" := by decide

end Languru
